import Mathlib

/-!
Shallow embedding of the budget-daily-tracker application core (`src/App.js`).

Modelling conventions:
* JavaScript numbers are modelled as exact rationals (`ℚ`); the values
  `undefined` and `NaN`, which the app's balance can take, are explicit
  constructors of `JsVal`.
* Calendar instants are modelled as integers counting milliseconds since the
  Unix epoch (the representation dayjs uses internally), with the UTC calendar:
  a day is an aligned block of `msPerDay` milliseconds.  `dayjs.startOf "day"`
  is flooring to the block start, `endOf "day"` is the last millisecond of the
  block, and `dayjs.diff _ "day"` truncates the millisecond difference toward
  zero (dayjs's `absFloor`), i.e. `Int.tdiv`.
* An ISO-8601 timestamp string produced by `toISOString` denotes its instant
  exactly at millisecond precision, and `dayjs` parses it back to the same
  instant; the serialized period is therefore modelled by the pair of instants
  the strings denote.
* React state setters are modelled by explicit state passing: each UI
  operation is a function from the application state (plus the inputs the
  browser supplies: clock readings, fresh ids, form values) to the new state.
-/

namespace BudgetTracker

/-- A JavaScript number-valued slot as used by the app: `undefined` (the
balance before initialization), `NaN`, or a finite number modelled as a
rational. -/
inductive JsVal where
  | undef : JsVal
  | nan : JsVal
  | num : ℚ → JsVal
deriving DecidableEq, Repr

/-- The coercion `Number(rawAmount) || 0` at the top of `addTransaction`:
a finite number maps to itself (`0` is falsy and maps to the literal `0`,
which is the same value), `undefined` and `NaN` coerce to `NaN`, which is
falsy and maps to `0`. -/
def toNumberOr0 : JsVal → ℚ
  | .num q => q
  | _ => 0

/-- JavaScript addition of a number-valued slot and a finite number, as in
`setBalance ((b) => b + signed)`: `undefined + x` and `NaN + x` are `NaN`. -/
def jsAdd : JsVal → ℚ → JsVal
  | .num b, a => .num (b + a)
  | _, _ => .nan

/-- Milliseconds in one day. -/
def msPerDay : Int := 86400000

/-- `dayjs(t).startOf "day"`: floor `t` to the start of its UTC day. -/
def startOfDay (t : Int) : Int := msPerDay * (t.fdiv msPerDay)

/-- `dayjs(t).endOf "day"`: the last millisecond of the day containing `t`. -/
def endOfDay (t : Int) : Int := startOfDay t + (msPerDay - 1)

/-- Civil-calendar day count (proleptic Gregorian, days since 1970-01-01)
for a given year, month (1..12) and day, as used to locate month
boundaries for `dayjs.startOf "month"` / `endOf "month"`. -/
def daysFromCivil (y m d : Int) : Int :=
  let yy := if m ≤ 2 then y - 1 else y
  let era := yy.fdiv 400
  let yoe := yy - era * 400
  let doy := (153 * (if 2 < m then m - 3 else m + 9) + 2).fdiv 5 + d - 1
  let doe := yoe * 365 + yoe.fdiv 4 - yoe.fdiv 100 + doy
  era * 146097 + doe - 719468

/-- Inverse of `daysFromCivil`: the (year, month, day) of a day count. -/
def civilFromDays (z0 : Int) : Int × Int × Int :=
  let z := z0 + 719468
  let era := z.fdiv 146097
  let doe := z - era * 146097
  let yoe := (doe - doe.fdiv 1460 + doe.fdiv 36524 - doe.fdiv 146096).fdiv 365
  let y := yoe + era * 400
  let doy := doe - (365 * yoe + yoe.fdiv 4 - yoe.fdiv 100)
  let mp := (5 * doy + 2).fdiv 153
  let d := doy - (153 * mp + 2).fdiv 5 + 1
  let m := if mp < 10 then mp + 3 else mp - 9
  (if m ≤ 2 then y + 1 else y, m, d)

/-- `dayjs(t).startOf "month"`: first millisecond of the month containing `t`. -/
def startOfMonth (t : Int) : Int :=
  let c := civilFromDays (t.fdiv msPerDay)
  msPerDay * daysFromCivil c.1 c.2.1 1

/-- `dayjs(t).endOf "month"`: last millisecond of the month containing `t`. -/
def endOfMonth (t : Int) : Int :=
  let c := civilFromDays (t.fdiv msPerDay)
  let next := if c.2.1 = 12 then (c.1 + 1, 1) else (c.1, c.2.1 + 1)
  msPerDay * daysFromCivil next.1 next.2 1 - 1

/-- A dayjs range as held in React state or passed around the app: possibly
null, and each bound possibly null — mirroring the guards
`!period || !period[0] || !period[1]` in the source. -/
abbrev JsPeriod := Option (Option Int × Option Int)

/-- `defaultPeriod()` from the source: the current calendar month,
`[dayjs().startOf("month"), dayjs().endOf("month")]`, as a function of the
clock reading `now`. -/
def defaultPeriod (now : Int) : JsPeriod :=
  some (some (startOfMonth now), some (endOfMonth now))

/-- `computeDaysLeft(period)` from the source, with the clock reading
(`dayjs()`) passed explicitly as `now`:

if either bound is missing return 0; otherwise let `today` be the start of
the current day, `start` the start of the period's first day, `end` the end
of the period's last day, `effectiveStart = today.isAfter(start) ? today :
start`; return 0 if `end` is before `effectiveStart`, else the whole-day
difference plus one. -/
def computeDaysLeft (period : JsPeriod) (now : Int) : Int :=
  match period with
  | some (some p0, some p1) =>
    let today := startOfDay now
    let start := startOfDay p0
    let theEnd := endOfDay p1
    let effectiveStart := if start < today then today else start
    if theEnd < effectiveStart then 0
    else (theEnd - effectiveStart).tdiv msPerDay + 1
  | _ => 0

/-- `(x).toFixed(2)` followed by unary `+`, under ideal (exact) number
semantics: round to the nearest multiple of 1/100, ties away from zero
toward plus infinity (`round x = ⌊x + 1/2⌋`); `NaN.toFixed(2)` parses back
to `NaN`. -/
def jsToFixed2 : JsVal → JsVal
  | .num q => .num ((round (q * 100) : ℤ) / 100)
  | _ => .nan

/-- JavaScript division `balance / daysLeft` of a number-valued slot by a
nonzero integer: `undefined` and `NaN` numerators give `NaN`. -/
def jsDiv (b : JsVal) (d : Int) : JsVal :=
  match b with
  | .num q => .num (q / (d : ℚ))
  | _ => .nan

/-- The derived `dailyLimit` from the source:
`daysLeft > 0 ? +(balance / daysLeft).toFixed(2) : 0`. -/
def dailyLimit (balance : JsVal) (daysLeft : Int) : JsVal :=
  if 0 < daysLeft then jsToFixed2 (jsDiv balance daysLeft) else .num 0

/-- A transaction record `{id, dateISO, type, amount, reason}` as produced
by `addTransaction`. -/
structure Txn where
  id : String
  dateISO : String
  type : String
  amount : ℚ
  reason : String
deriving DecidableEq, Repr

/-- The in-memory application state owned by `AppProvider`: the three React
state slots `balance`, `transactions`, `period`. -/
structure AppState where
  balance : JsVal
  transactions : List Txn
  period : JsPeriod
deriving DecidableEq, Repr

/-- The initial React state: `useState()` balance (undefined), empty
transaction list, `defaultPeriod()`. -/
def initialState (now : Int) : AppState :=
  { balance := .undef, transactions := [], period := defaultPeriod now }

/-- `reason?.trim() || ""`: a missing reason or one trimming to the empty
string becomes `""`. -/
def normalizeReason : Option String → String
  | some r => r.trim
  | none => ""

/-- The content of the `message.success` call in `addTransaction`: direction
sign, magnitude, and normalized reason shown to the user. -/
structure TxnMessage where
  sign : String
  magnitude : ℚ
  note : String
deriving DecidableEq, Repr

/-- `addTransaction(rawAmount, reason)` from the source, with the fresh id
(`newTxnId()`) and clock reading (`new Date().toISOString()`) passed
explicitly.  Returns the new state and the user-visible confirmation
(`none` when the call returned early and showed nothing). -/
def addTransaction (s : AppState) (rawAmount : JsVal) (reason : Option String)
    (id dateISO : String) : AppState × Option TxnMessage :=
  let amount := toNumberOr0 rawAmount
  if amount = 0 then (s, none)
  else
    let type := if 0 ≤ amount then "add" else "sub"
    let signed := amount
    let next : Txn :=
      { id := id, dateISO := dateISO, type := type,
        amount := |signed|, reason := normalizeReason reason }
    ({ s with
        balance := jsAdd s.balance signed,
        transactions := next :: s.transactions },
     some { sign := if type = "add" then "+" else "-",
            magnitude := |amount|, note := next.reason })

/-- `resetAll()` from the source: balance to `undefined`, transactions to
`[]`, period to `defaultPeriod()`. -/
def resetAll (_s : AppState) (now : Int) : AppState :=
  { balance := .undef, transactions := [], period := defaultPeriod now }

/-- `Number(value) || undefined` from `BalanceInput.handleSave`: a nonzero
finite number maps to itself; zero, `NaN` and `undefined` map to
`undefined`. -/
def numberOrUndefined : JsVal → JsVal
  | .num q => if q = 0 then .undef else .num q
  | _ => (.undef)

/-- `BalanceInput.handleSave`, i.e. the spec's `setStartingBalance`:
`setBalance(Number(value) || undefined)`; touches no other state slot. -/
def setStartingBalance (s : AppState) (value : JsVal) : AppState :=
  { s with balance := numberOrUndefined value }

/-- The `PeriodSelector` range-picker change handler:
`vals && vals[0] && vals[1] ? setPeriod(vals) : setPeriod(defaultPeriod())`. -/
def setPeriodOp (s : AppState) (vals : JsPeriod) (now : Int) : AppState :=
  match vals with
  | some (some a, some b) => { s with period := some (some a, some b) }
  | _ => { s with period := defaultPeriod now }

/-- `toISOPeriod(period)`: `null` when the period or either bound is
missing, otherwise the pair of ISO strings — modelled by the instants the
strings denote. -/
def toISOPeriod (p : JsPeriod) : Option (Int × Int) :=
  match p with
  | some (some a, some b) => some (a, b)
  | _ => none

/-- `fromISOPeriod(iso)`: the default period when the stored value is
missing, otherwise the two parsed instants. -/
def fromISOPeriod (iso : Option (Int × Int)) (now : Int) : JsPeriod :=
  match iso with
  | some (a, b) => some (some a, some b)
  | none => defaultPeriod now

/-- The persisted snapshot written by the persist effect:
`{ balance, transactions, period: toISOPeriod(period) }`. -/
structure Snapshot where
  balance : JsVal
  transactions : List Txn
  period : Option (Int × Int)
deriving DecidableEq, Repr

/-- Building the snapshot passed to `saveState` from the current state. -/
def serialize (s : AppState) : Snapshot :=
  { balance := s.balance,
    transactions := s.transactions,
    period := toISOPeriod s.period }

/-- `typeof saved.balance === "number"`: true for finite numbers and `NaN`,
false for `undefined`. -/
def isNumber : JsVal → Bool
  | .num _ => true
  | .nan => true
  | .undef => false

/-- The hydrate effect's adoption of a non-null saved snapshot into the
current (default) state `s`: balance only if it is a number, transactions
(always an array here, so `Array.isArray` holds), period through
`fromISOPeriod` only if the stored field is non-null. -/
def hydrateFrom (saved : Snapshot) (s : AppState) (now : Int) : AppState :=
  { balance := if isNumber saved.balance then saved.balance else s.balance,
    transactions := saved.transactions,
    period := if saved.period.isSome then fromISOPeriod saved.period now
              else s.period }

/-- Application states reachable across the app's lifetime: the fresh state,
every UI operation, and hydrating a fresh session from the serialized
snapshot of a previously reached state. -/
inductive ReachableState : AppState → Prop where
  | init (now : Int) : ReachableState (initialState now)
  | add (raw : JsVal) (reason : Option String) (id dateISO : String)
      {s : AppState} (h : ReachableState s) :
      ReachableState (addTransaction s raw reason id dateISO).1
  | reset (now : Int) {s : AppState} (h : ReachableState s) :
      ReachableState (resetAll s now)
  | setBal (v : JsVal) {s : AppState} (h : ReachableState s) :
      ReachableState (setStartingBalance s v)
  | setPer (vals : JsPeriod) (now : Int) {s : AppState} (h : ReachableState s) :
      ReachableState (setPeriodOp s vals now)
  | hydrate (now : Int) {s s0 : AppState}
      (h : ReachableState s) (h0 : ReachableState s0) :
      ReachableState (hydrateFrom (serialize s) s0 now)

/-- The controller lifecycle state: the React state plus the `hydrated`
flag. -/
structure Controller where
  state : AppState
  hydrated : Bool
deriving DecidableEq, Repr

/-- The provider's mount-time state: defaults, `hydrated` false. -/
def initController (now : Int) : Controller :=
  { state := initialState now, hydrated := false }

/-- The persist effect body (`if (!hydrated) return; saveState(state)`),
acting on the history of issued saves: it issues a save of the serialized
current state only when `hydrated` is set. -/
def persistEffect (c : Controller) (saves : List Snapshot) : List Snapshot :=
  if c.hydrated then serialize c.state :: saves else saves

/-- One scheduler step of the controller lifecycle: a run of the persist
effect, completion of hydration (with a snapshot, or via the
null/exception fallback that keeps defaults), or any UI mutation. -/
inductive Step : Controller × List Snapshot → Controller × List Snapshot → Prop where
  | persist (c : Controller) (l : List Snapshot) :
      Step (c, l) (c, persistEffect c l)
  | hydrateSome (c : Controller) (l : List Snapshot) (saved : Snapshot) (now : Int) :
      Step (c, l) ({ state := hydrateFrom saved c.state now, hydrated := true }, l)
  | hydrateNone (c : Controller) (l : List Snapshot) :
      Step (c, l) ({ c with hydrated := true }, l)
  | add (c : Controller) (l : List Snapshot) (raw : JsVal)
      (reason : Option String) (id dateISO : String) :
      Step (c, l) ({ c with state := (addTransaction c.state raw reason id dateISO).1 }, l)
  | reset (c : Controller) (l : List Snapshot) (now : Int) :
      Step (c, l) ({ c with state := resetAll c.state now }, l)
  | setBal (c : Controller) (l : List Snapshot) (v : JsVal) :
      Step (c, l) ({ c with state := setStartingBalance c.state v }, l)
  | setPer (c : Controller) (l : List Snapshot) (vals : JsPeriod) (now : Int) :
      Step (c, l) ({ c with state := setPeriodOp c.state vals now }, l)

/-- Lifecycle configurations reachable from a fresh mount. -/
inductive ReachableSys : Controller × List Snapshot → Prop where
  | init (now : Int) : ReachableSys (initController now, [])
  | step {a b : Controller × List Snapshot}
      (h : ReachableSys a) (hs : Step a b) : ReachableSys b

/-! ### Arithmetic helper lemmas about day arithmetic -/

lemma msPerDay_pos : (0 : Int) < msPerDay := by norm_num [msPerDay]

lemma startOfDay_le (t : Int) : startOfDay t ≤ t := by
  have h := Int.fmod_add_fdiv t msPerDay
  have h2 : 0 ≤ t.fmod msPerDay := Int.fmod_nonneg' t msPerDay_pos
  simp only [startOfDay] at *
  omega

lemma endOfDay_lt_aligned {t T : Int} (hT : startOfDay T = T) (h : t < T) :
    endOfDay t < T := by
  have hd : msPerDay * (t.fdiv msPerDay) < msPerDay * (T.fdiv msPerDay) := by
    calc msPerDay * (t.fdiv msPerDay) ≤ t := startOfDay_le t
    _ < T := h
    _ = msPerDay * (T.fdiv msPerDay) := hT.symm
  have hq : t.fdiv msPerDay < T.fdiv msPerDay :=
    lt_of_mul_lt_mul_left hd (le_of_lt msPerDay_pos)
  have h3 : msPerDay * (t.fdiv msPerDay + 1) ≤ msPerDay * (T.fdiv msPerDay) :=
    mul_le_mul_of_nonneg_left hq (le_of_lt msPerDay_pos)
  simp only [endOfDay, startOfDay] at *
  rw [mul_add, mul_one] at h3
  omega

lemma computeDaysLeft_eq_branch (p0 p1 now : Int) :
    computeDaysLeft (some (some p0, some p1)) now
      = if endOfDay p1 < max (startOfDay now) (startOfDay p0) then 0
        else (endOfDay p1 - max (startOfDay now) (startOfDay p0)).tdiv msPerDay + 1 := by
  have hmax : (if startOfDay p0 < startOfDay now then startOfDay now else startOfDay p0)
      = max (startOfDay now) (startOfDay p0) := by
    rcases lt_or_le (startOfDay p0) (startOfDay now) with h | h
    · rw [if_pos h, max_eq_left (le_of_lt h)]
    · rw [if_neg (not_lt.mpr h), max_eq_right h]
  simp only [computeDaysLeft]
  rw [hmax]

/-! ### Claim theorems -/

/-- Claim C1: for every period with both bounds present and every day `T`
taken as "today" (a day-aligned instant), `computeDaysLeft` returns
`max 0 (wholeDays(endOfDay P.end - max (startOfDay T) (startOfDay P.start)) + 1)`
(whole days meaning the floor of the millisecond difference in days); in
particular the result is always nonnegative, and it is exactly 0 whenever
`T` is strictly after `P.end`. -/
theorem computeDaysLeft_spec (p0 p1 T : Int) (hT : startOfDay T = T) :
    computeDaysLeft (some (some p0, some p1)) T
      = max 0 ((endOfDay p1 - max (startOfDay T) (startOfDay p0)).fdiv msPerDay + 1)
    ∧ 0 ≤ computeDaysLeft (some (some p0, some p1)) T
    ∧ (p1 < T → computeDaysLeft (some (some p0, some p1)) T = 0) := by
  have hD : (0 : Int) < msPerDay := msPerDay_pos
  have hbr := computeDaysLeft_eq_branch p0 p1 T
  set eff := max (startOfDay T) (startOfDay p0) with heff
  by_cases hlt : endOfDay p1 < eff
  · have hneg : (endOfDay p1 - eff).fdiv msPerDay < 0 :=
      Int.fdiv_neg' (by omega) hD
    rw [hbr, if_pos hlt]
    exact ⟨(max_eq_left (by omega)).symm, le_refl 0, fun _ => rfl⟩
  · have hge : eff ≤ endOfDay p1 := not_lt.mp hlt
    have htf : (endOfDay p1 - eff).fdiv msPerDay = (endOfDay p1 - eff).tdiv msPerDay :=
      Int.fdiv_eq_tdiv (by omega) (le_of_lt hD)
    have hnn : 0 ≤ (endOfDay p1 - eff).fdiv msPerDay :=
      Int.fdiv_nonneg (by omega) (le_of_lt hD)
    rw [hbr, if_neg hlt]
    refine ⟨?_, by omega, ?_⟩
    · rw [← htf]
      exact (max_eq_right (by omega)).symm
    · intro hafter
      exfalso
      have h1 : endOfDay p1 < T := endOfDay_lt_aligned hT hafter
      have h2 : startOfDay T ≤ eff := le_max_left _ _
      rw [hT] at h2
      omega

theorem computeDaysLeft_spec_witness :
    startOfDay 86400000 = 86400000 ∧
    (computeDaysLeft (some (some 0, some 0)) 86400000
      = max 0 ((endOfDay 0 - max (startOfDay 86400000) (startOfDay 0)).fdiv msPerDay + 1)
    ∧ 0 ≤ computeDaysLeft (some (some 0, some 0)) 86400000
    ∧ ((0 : Int) < 86400000 → computeDaysLeft (some (some 0, some 0)) 86400000 = 0)) :=
  ⟨by decide, computeDaysLeft_spec 0 0 86400000 (by decide)⟩

/-- Claim C2: for every numeric balance `B ≥ 0` and integer `D`, the derived
`dailyLimit` equals `B / D` rounded to 2 decimal places (round half toward
plus infinity, as `toFixed` does) when `D > 0`, and equals exactly 0 when
`D = 0`; the guard short-circuits the division for `D = 0`, so even a
balance whose division would poison the result (`undefined` / `NaN`) yields
the clean numeric 0. -/
theorem dailyLimit_spec (B : ℚ) (D : Int) (hB : 0 ≤ B) :
    (0 < D → dailyLimit (.num B) D = .num (((round (B / (D : ℚ) * 100) : ℤ) : ℚ) / 100))
    ∧ dailyLimit (.num B) 0 = .num 0
    ∧ (∀ v : JsVal, dailyLimit v 0 = .num 0) := by
  refine ⟨fun hD => ?_, rfl, fun v => rfl⟩
  rw [dailyLimit, if_pos hD]
  rfl

theorem dailyLimit_spec_witness :
    (0 : ℚ) ≤ 5
    ∧ ((0 < (3 : Int) → dailyLimit (.num 5) 3
          = .num (((round ((5 : ℚ) / ((3 : Int) : ℚ) * 100) : ℤ) : ℚ) / 100))
    ∧ dailyLimit (.num 5) 0 = .num 0
    ∧ (∀ v : JsVal, dailyLimit v 0 = .num 0)) :=
  ⟨by norm_num, dailyLimit_spec 5 3 (by norm_num)⟩

/-- Claim C3: for every state with numeric balance `B`, every nonzero finite
amount `A` and every note, `addTransaction` sets the balance to `B + A` and
prepends exactly one transaction whose stored amount is `|A|` and whose type
is "add" if `A > 0` and "sub" if `A < 0`, leaving the previously logged
transactions unchanged in their prior order after the new head (and the
period untouched). -/
theorem addTransaction_valid (s : AppState) (A B : ℚ) (hA : A ≠ 0)
    (hB : s.balance = .num B) (reason : Option String) (id dateISO : String) :
    (addTransaction s (.num A) reason id dateISO).1.balance = .num (B + A)
    ∧ ∃ t : Txn,
        (addTransaction s (.num A) reason id dateISO).1.transactions
          = t :: s.transactions
        ∧ t.amount = |A|
        ∧ t.type = (if 0 < A then "add" else "sub")
        ∧ (addTransaction s (.num A) reason id dateISO).1.period = s.period := by
  have hnum : toNumberOr0 (.num A) = A := rfl
  rw [addTransaction]
  rw [hnum, if_neg hA]
  refine ⟨by rw [hB]; rfl, ⟨_, rfl, rfl, ?_, rfl⟩⟩
  rcases lt_or_gt_of_ne hA with h | h
  · rw [if_neg (not_le.mpr h), if_neg (not_lt.mpr (le_of_lt h))]
  · rw [if_pos (le_of_lt h), if_pos h]

theorem addTransaction_valid_witness :
    (5 : ℚ) ≠ 0
    ∧ (AppState.mk (.num 1) [] (some (some 0, some 0))).balance = .num 1
    ∧ ((addTransaction ⟨.num 1, [], some (some 0, some 0)⟩ (.num 5)
          (some " salary ") "id1" "t1").1.balance = .num (1 + 5)
      ∧ ∃ t : Txn,
          (addTransaction ⟨.num 1, [], some (some 0, some 0)⟩ (.num 5)
            (some " salary ") "id1" "t1").1.transactions
            = t :: (AppState.mk (.num 1) [] (some (some 0, some 0))).transactions
          ∧ t.amount = |(5 : ℚ)|
          ∧ t.type = (if (0 : ℚ) < 5 then "add" else "sub")
          ∧ (addTransaction ⟨.num 1, [], some (some 0, some 0)⟩ (.num 5)
              (some " salary ") "id1" "t1").1.period
              = (AppState.mk (.num 1) [] (some (some 0, some 0))).period) :=
  ⟨by norm_num, rfl,
    addTransaction_valid ⟨.num 1, [], some (some 0, some 0)⟩ 5 1 (by norm_num) rfl
      (some " salary ") "id1" "t1"⟩

/-- Claim C4: for every balance and every `rawAmount` that is zero or not
coercible to a nonzero number, `addTransaction` is a no-op: the returned
state is the input state unchanged (so the persist effect is not
re-triggered) and no confirmation message is produced. -/
theorem addTransaction_noop (s : AppState) (raw : JsVal)
    (h : toNumberOr0 raw = 0) (reason : Option String) (id dateISO : String) :
    addTransaction s raw reason id dateISO = (s, none) := by
  rw [addTransaction, h, if_pos rfl]

theorem addTransaction_noop_witness :
    toNumberOr0 .nan = 0
    ∧ addTransaction ⟨.num 3, [], none⟩ .nan none "id2" "t2"
        = (⟨.num 3, [], none⟩, none) :=
  ⟨rfl, addTransaction_noop ⟨.num 3, [], none⟩ .nan rfl none "id2" "t2"⟩

/-- Claim C5: invariant over all reachable transaction logs — every
transaction ever produced and persisted has a strictly positive stored
amount and a type that is exactly one of the literals "add" and "sub". -/
theorem reachable_txn_invariant (s : AppState) (h : ReachableState s) :
    ∀ t ∈ s.transactions, 0 < t.amount ∧ (t.type = "add" ∨ t.type = "sub") := by
  induction h with
  | init now => intro t ht; simp [initialState] at ht
  | add raw reason id dateISO h ih =>
    intro t ht
    by_cases h0 : toNumberOr0 raw = 0
    · rw [addTransaction, h0, if_pos rfl] at ht
      exact ih t ht
    · rw [addTransaction, if_neg h0] at ht
      simp only [List.mem_cons] at ht
      rcases ht with rfl | ht

      · refine ⟨abs_pos.mpr h0, ?_⟩
        by_cases hle : 0 ≤ toNumberOr0 raw
        · exact Or.inl (by simp [hle])
        · exact Or.inr (by simp [hle])
      · exact ih t ht
  | reset now h ih => intro t ht; simp [resetAll] at ht
  | setBal v h ih => intro t ht; exact ih t ht
  | setPer vals now h ih =>
    intro t ht
    rcases vals with _ | ⟨_ | a, _ | b⟩ <;>
      simp only [setPeriodOp] at ht <;> exact ih t ht
  | hydrate now h h0 ih ih0 =>
    intro t ht
    exact ih t ht

theorem reachable_txn_invariant_witness :
    Txn.mk "id3" "t3" "add" 5 ""
        ∈ ((addTransaction (initialState 0) (.num 5) none "id3" "t3").1).transactions
    ∧ 0 < (Txn.mk "id3" "t3" "add" 5 "").amount
    ∧ ((Txn.mk "id3" "t3" "add" 5 "").type = "add"
        ∨ (Txn.mk "id3" "t3" "add" 5 "").type = "sub") :=
  ⟨by decide,
    reachable_txn_invariant _
      (ReachableState.add (.num 5) none "id3" "t3" (ReachableState.init 0))
      (Txn.mk "id3" "t3" "add" 5 "") (by decide)⟩

/-- Claim C6: round-trip — for every state whose period has both bounds
present, serializing the state (period bounds to ISO strings, other fields
native) and hydrating a fresh session from the result yields an equal
state: equal balance, the same transaction list in the same order, and a
period denoting the same instants. -/
theorem save_load_roundTrip (s : AppState) (a b : Int)
    (hp : s.period = some (some a, some b)) (now now2 : Int) :
    hydrateFrom (serialize s) (initialState now) now2 = s := by
  obtain ⟨bal, txns, per⟩ := s
  simp only at hp
  subst hp
  cases bal <;> rfl

theorem save_load_roundTrip_witness :
    (AppState.mk .undef [] (some (some 3, some 7))).period = some (some 3, some 7)
    ∧ hydrateFrom (serialize ⟨.undef, [], some (some 3, some 7)⟩) (initialState 0) 1
        = ⟨.undef, [], some (some 3, some 7)⟩ :=
  ⟨rfl, save_load_roundTrip ⟨.undef, [], some (some 3, some 7)⟩ 3 7 rfl 0 1⟩

/-- Claim C7: from every starting state, `resetAll` yields the state with
balance unset, empty transaction log and the default current-month period;
consequently it is idempotent — resetting twice (within the same month
reading `now`) equals resetting once. -/
theorem resetAll_spec (s : AppState) (now : Int) :
    resetAll s now
      = { balance := .undef, transactions := [], period := defaultPeriod now }
    ∧ resetAll (resetAll s now) now = resetAll s now :=
  ⟨rfl, rfl⟩

lemma reachableSys_no_save {p : Controller × List Snapshot}
    (h : ReachableSys p) : p.1.hydrated = false → p.2 = [] := by
  induction h with
  | init now => intro _; rfl
  | step h hs ih =>
    cases hs with
    | persist c l =>
      intro hh
      simp only at hh ih ⊢
      rw [persistEffect, hh]
      simp only [Bool.false_eq_true, if_false]
      exact ih hh
    | hydrateSome c l saved now => intro hh; simp at hh
    | hydrateNone c l => intro hh; simp at hh
    | add c l raw reason id dateISO => exact ih
    | reset c l now => exact ih
    | setBal c l v => exact ih
    | setPer c l vals now => exact ih

/-- Claim C8: in every reachable controller lifecycle configuration, no save
has ever been issued while the hydrated flag is still false (so pre-load
default state can never overwrite previously persisted data), and a run of
the persist effect while the flag is false is suppressed — it issues no
save at all. -/
theorem no_save_before_hydration (c : Controller) (l : List Snapshot)
    (h : ReachableSys (c, l)) :
    (c.hydrated = false → l = [])
    ∧ ∀ saves : List Snapshot, c.hydrated = false → persistEffect c saves = saves := by
  refine ⟨fun hh => reachableSys_no_save h hh, fun saves hh => ?_⟩
  rw [persistEffect, hh]
  simp

theorem no_save_before_hydration_witness :
    ((initController 0).hydrated = false → ([] : List Snapshot) = [])
    ∧ ∀ saves : List Snapshot,
        (initController 0).hydrated = false → persistEffect (initController 0) saves = saves :=
  no_save_before_hydration (initController 0) [] (ReachableSys.init 0)

/-- Claim C9: for every input `value` reaching `BalanceInput.handleSave`
(the form widget enforces that it is unset or a nonnegative number),
the operation replaces the balance with a nonnegative number when the
input coerces to a nonzero number, and with unset otherwise (zero,
`NaN`, `undefined`); in either case the transaction log (and the period)
is untouched — no transaction is created. -/
theorem setStartingBalance_spec (s : AppState) (v : JsVal)
    (hv : v = .undef ∨ ∃ q : ℚ, v = .num q ∧ 0 ≤ q) :
    (setStartingBalance s v).transactions = s.transactions
    ∧ (setStartingBalance s v).period = s.period
    ∧ (∀ q : ℚ, v = .num q → q ≠ 0 →
        (setStartingBalance s v).balance = .num q ∧ 0 ≤ q)
    ∧ ((∀ q : ℚ, v = .num q → q = 0) → (setStartingBalance s v).balance = .undef) := by
  refine ⟨rfl, rfl, ?_, ?_⟩
  · intro q hq hq0
    subst hq
    refine ⟨?_, ?_⟩
    · show numberOrUndefined (.num q) = .num q
      rw [numberOrUndefined, if_neg hq0]
    · rcases hv with hv | ⟨q2, hq2, hq2n⟩
      · exact absurd hv (by simp)
      · cases JsVal.num.inj hq2
        exact hq2n
  · intro hall
    cases v with
    | undef => rfl
    | nan => rfl
    | num q =>
      show numberOrUndefined (.num q) = .undef
      rw [numberOrUndefined, if_pos (hall q rfl)]

theorem setStartingBalance_spec_witness :
    (JsVal.num 5 = .undef ∨ ∃ q : ℚ, JsVal.num 5 = .num q ∧ 0 ≤ q)
    ∧ ((setStartingBalance ⟨.undef, [], none⟩ (.num 5)).transactions
          = (AppState.mk .undef [] none).transactions
      ∧ (setStartingBalance ⟨.undef, [], none⟩ (.num 5)).period
          = (AppState.mk .undef [] none).period
      ∧ (∀ q : ℚ, JsVal.num 5 = .num q → q ≠ 0 →
          (setStartingBalance ⟨.undef, [], none⟩ (.num 5)).balance = .num q ∧ 0 ≤ q)
      ∧ ((∀ q : ℚ, JsVal.num 5 = .num q → q = 0) →
          (setStartingBalance ⟨.undef, [], none⟩ (.num 5)).balance = .undef)) :=
  ⟨Or.inr ⟨5, rfl, by norm_num⟩,
    setStartingBalance_spec ⟨.undef, [], none⟩ (.num 5) (Or.inr ⟨5, rfl, by norm_num⟩)⟩

/-- Claim C10: if `addTransaction` is called with a valid nonzero amount
while the balance is still `undefined`, the operation neither fails nor
no-ops — a transaction is still created and prepended to the log, and the
resulting balance is `NaN` (`undefined + number`). -/
theorem addTransaction_undef_balance (s : AppState) (A : ℚ) (hA : A ≠ 0)
    (hb : s.balance = .undef) (reason : Option String) (id dateISO : String) :
    (addTransaction s (.num A) reason id dateISO).1.balance = .nan
    ∧ ∃ t : Txn,
        (addTransaction s (.num A) reason id dateISO).1.transactions
          = t :: s.transactions := by
  have hnum : toNumberOr0 (.num A) = A := rfl
  rw [addTransaction, hnum, if_neg hA]
  exact ⟨by rw [hb]; rfl, ⟨_, rfl⟩⟩

theorem addTransaction_undef_balance_witness :
    (7 : ℚ) ≠ 0
    ∧ (AppState.mk .undef [] none).balance = .undef
    ∧ ((addTransaction ⟨.undef, [], none⟩ (.num 7) none "id4" "t4").1.balance = .nan
      ∧ ∃ t : Txn,
          (addTransaction ⟨.undef, [], none⟩ (.num 7) none "id4" "t4").1.transactions
            = t :: (AppState.mk .undef [] none).transactions) :=
  ⟨by norm_num, rfl,
    addTransaction_undef_balance ⟨.undef, [], none⟩ 7 (by norm_num) rfl none "id4" "t4"⟩

end BudgetTracker
